import Mathlib

/-!
Verification of the job-orchestration core of the tiles poller
(`b44_interface.py` / `main_handler.py`).

The Python code is shallowly embedded: the external world (HTTP requests,
S3 uploads, the dask computation) is represented by explicit oracle values
describing the outcome of each call, and the orchestrator `main` loop is
translated into a pure function from configuration, discovered entities,
oracles and the initial ledger to the resulting ledger, an event trace of
the side effects performed, and the count of newly handled jobs.
Local-filesystem writes (artifact files, the state file) are modelled as
infallible, matching the spec's treatment of local durable storage.
-/

deriving instance DecidableEq for Except

namespace Tiles

/-! ### Python string primitives

Structurally recursive (kernel-computable) renderings of the Python
string operations the poller uses. -/

/-- Python `s.strip()`: remove leading and trailing whitespace. -/
def pyStrip (s : String) : String :=
  ⟨((s.data.dropWhile Char.isWhitespace).reverse.dropWhile Char.isWhitespace).reverse⟩

/-- Python `s.lower()`. -/
def pyLower (s : String) : String := ⟨s.data.map Char.toLower⟩

/-- Does the second list start with the first? -/
def leadsWith : List Char → List Char → Bool
  | [], _ => true
  | _ :: _, [] => false
  | a :: as, b :: bs => a == b && leadsWith as bs

/-- Python `needle in hay` on strings: substring occurrence. -/
def subOccurs (needle : List Char) : List Char → Bool
  | [] => needle.isEmpty
  | c :: rest => leadsWith needle (c :: rest) || subOccurs needle rest

/-- A job entity as returned by the remote store listing
(`GET .../entities/...`).  Absent JSON fields are `none`. -/
structure Entity where
  id : Option String
  file_url : Option String
  filename : Option String
  status : String
  is_sample : Bool
deriving DecidableEq, Repr

/-- `job_id = str(e.get("id") or "").strip()` from `main` (b44_interface.py
line 265): a missing id becomes the empty string, then whitespace is
stripped. -/
def jobIdOf (e : Entity) : String := pyStrip (e.id.getD "")

/-- `furl = e.get("file_url")`, with Python falsiness: `not furl` is true
exactly when the field is absent or the empty string. -/
def furlOf (e : Entity) : String := (e.file_url.getD "")

/-- The result tuple of `tiles_pipeline`: `success, errors, rows, meta`.
Rows are association lists standing for Python dicts (unique keys, in
insertion order); the meta fields used by `main` are kept explicitly. -/
structure RunResult where
  success : Bool
  errors : List String
  rows : List (List (String × String))
  meta_run_successful : Bool
  meta_error_messages : List String
deriving DecidableEq, Repr

/-- Outcomes of the external calls made for one job, in the order `main`
performs them.  A `true` field means the call returned normally; `false`
means it raised.  `pipeline` is the outcome of `tiles_pipeline(dst, job_id)`:
either a raised exception message or the returned tuple. -/
structure JobOracle where
  download_ok : Bool
  upd_queued_ok : Bool
  upd_running_ok : Bool
  pipeline : Except String RunResult
  upload_json_ok : Bool
  upload_csv_ok : Bool
  upd_terminal_ok : Bool
  upd_failed_ok : Bool
deriving Repr

/-- Observable side effects of the orchestrator, in program order.
`update id status ok` is one `update_entity(id, {"status": status, ...})`
attempt and whether it succeeded; `artifacts` is the local
`write_run_artifacts` call; `publish` is one `s3_upload`; `record` is the
insertion of `id` into `downloaded_ids` followed by `save_state`. -/
inductive Event where
  | fetch (id : String)
  | update (id : String) (status : String) (ok : Bool)
  | artifacts (id : String)
  | publish (id : String) (artifact : String) (ok : Bool)
  | record (id : String)
deriving DecidableEq, Repr

/-- Configuration bits of `main` that the claims depend on.
`update_to_queued` is `UPDATE_TO_QUEUED` (env default true). -/
structure Config where
  update_to_queued : Bool
deriving DecidableEq, Repr

/-- The ledger (`downloaded_ids` of the state file), reduced to its key
set; entry metadata plays no role in any claim. -/
abbrev Ledger := List String

/-- The body of the `for e in entities` loop of `main` (b44_interface.py
lines 264-345) for a single entity: returns the updated ledger, the trace
of side effects performed for this entity, and the increment to
`new_downloads`.  The `try`/`except` structure is mirrored branch by
branch: any raise inside the try block (download, pipeline, upload, or the
terminal `update_entity`) jumps to the handler, which makes one
best-effort `failed` update; the advisory `queued`/`running` updates are
wrapped in their own inner `try` and never raise. -/
def processEntity (cfg : Config) (orc : JobOracle) (ledger : Ledger) (e : Entity) :
    Ledger × List Event × Nat :=
  let job_id := jobIdOf e
  if job_id = "" ∨ furlOf e = "" then (ledger, [], 0)
  else if job_id ∈ ledger then (ledger, [], 0)
  else if ¬ orc.download_ok then
    -- `download(furl, dst)` raised: straight to the except handler
    (ledger, [.fetch job_id, .update job_id "failed" orc.upd_failed_ok], 0)
  else
    let pre : List Event :=
      .fetch job_id ::
        (if cfg.update_to_queued then [.update job_id "queued" orc.upd_queued_ok] else []) ++
        [.update job_id "running" orc.upd_running_ok]
    match orc.pipeline with
    | .error _ =>
        -- `tiles_pipeline` raised: except handler
        (ledger, pre ++ [.update job_id "failed" orc.upd_failed_ok], 0)
    | .ok r =>
        let withArt := pre ++ [.artifacts job_id]
        if ¬ orc.upload_json_ok then
          (ledger, withArt ++ [.publish job_id "json" false,
                               .update job_id "failed" orc.upd_failed_ok], 0)
        else if ¬ orc.upload_csv_ok then
          (ledger, withArt ++ [.publish job_id "json" true, .publish job_id "csv" false,
                               .update job_id "failed" orc.upd_failed_ok], 0)
        else
          let term := if r.success then "completed" else "failed"
          if ¬ orc.upd_terminal_ok then
            -- terminal update raised: except handler; no ledger write
            (ledger, withArt ++ [.publish job_id "json" true, .publish job_id "csv" true,
                                 .update job_id term false,
                                 .update job_id "failed" orc.upd_failed_ok], 0)
          else
            (job_id :: ledger,
             withArt ++ [.publish job_id "json" true, .publish job_id "csv" true,
                         .update job_id term true, .record job_id], 1)

/-- The batch loop of `main` over the discovered entities: jobs are
processed strictly sequentially, each seeing the ledger as left by its
predecessors; oracles are indexed by position in the list. -/
def mainLoop (cfg : Config) (orcs : Nat → JobOracle) :
    List Entity → Nat → Ledger → Ledger × List Event × Nat
  | [], _, ledger => (ledger, [], 0)
  | e :: rest, i, ledger =>
      let out := processEntity cfg (orcs i) ledger e
      let outRest := mainLoop cfg orcs rest (i + 1) out.1
      (outRest.1, out.2.1 ++ outRest.2.1, out.2.2 + outRest.2.2)

/-- `get_processing(limit)`: client-side filter of the raw listing for
`status.lower() == "processing"` and not a sample, capped at `limit`. -/
def get_processing (items : List Entity) (limit : Nat) : List Entity :=
  (items.filter fun e => pyLower e.status = "processing" && !e.is_sample).take limit

/-- `"REPLACE_WITH_YOUR_API_KEY" in API_KEY` — Python substring test. -/
def hasPlaceholder (key : String) : Bool :=
  subOccurs "REPLACE_WITH_YOUR_API_KEY".data key.data

/-- The startup check of `main`: `if not API_KEY or "REPLACE_WITH_YOUR_API_KEY" in API_KEY`. -/
def badKey (key : String) : Bool := key = "" || hasPlaceholder key

/-- The final summary line of `main`. -/
inductive Summary where
  | none_found
  | handled (n : Nat)
deriving DecidableEq, Repr

/-- Everything `main` leaves behind when it returns normally. -/
structure MainOutput where
  ledger : Ledger
  trace : List Event
  new_downloads : Nat
  summary : Summary
deriving DecidableEq, Repr

/-- `main` itself: the API-key gate (exit code 2) sits before the listing
call and the loop; otherwise the function runs the batch loop over the
filtered listing and returns normally (process exit code 0), with the
closing summary line. -/
def main_run (key : String) (cfg : Config) (listing : List Entity)
    (orcs : Nat → JobOracle) (ledger0 : Ledger) : Except Nat MainOutput :=
  if badKey key then .error 2
  else
    let entities := get_processing listing 100
    let out := mainLoop cfg orcs entities 0 ledger0
    .ok ⟨out.1, out.2.1, out.2.2,
         if out.2.2 = 0 then .none_found else .handled out.2.2⟩

/-- The job id an event is about. -/
def Event.idOf : Event → String
  | .fetch i => i
  | .update i _ _ => i
  | .artifacts i => i
  | .publish i _ _ => i
  | .record i => i

/-! ### HTTP retry/backoff (`backoff_sleep`, `http_get`, `update_entity`) -/

/-- `backoff_sleep(attempt)`: sleeps `2 ** attempt + random.random()`; the
jitter draw for each attempt is an explicit oracle. -/
def backoff_sleep (jitter : Nat → ℚ) (attempt : Nat) : ℚ :=
  2 ^ attempt + jitter attempt

/-- The `for attempt in range(1, retries + 1)` loop of `http_get`
(b44_interface.py lines 60-69), written with the remaining iteration count
as fuel.  `oracle a = true` means the request of attempt `a` returns
without raising.  Returns the sleeps performed and the successful attempt
number, or `none` when the last attempt's error is re-raised. -/
def httpAttempts (oracle : Nat → Bool) (jitter : Nat → ℚ) :
    Nat → Nat → List ℚ × Option Nat
  | _, 0 => ([], none)
  | attempt, remaining + 1 =>
      if oracle attempt then ([], some attempt)
      else if remaining = 0 then ([], none)
      else
        let rest := httpAttempts oracle jitter (attempt + 1) remaining
        (backoff_sleep jitter attempt :: rest.1, rest.2)

/-- `http_get(url, ..., retries=3)`: attempts start at 1.  Both the
candidate listing (`get_processing`) and the fetch stream's connection
establishment (`download`) go through this function. -/
def http_get (oracle : Nat → Bool) (jitter : Nat → ℚ) (retries : Nat) :
    List ℚ × Option Nat :=
  httpAttempts oracle jitter 1 retries

/-- `update_entity(entity_id, payload)` (b44_interface.py lines 113-117):
a single `requests.put` followed by `raise_for_status` — there is no retry
loop and no sleep; the error of the one attempt propagates immediately. -/
def update_entity (oracle : Nat → Bool) : List ℚ × Option Nat :=
  ([], if oracle 1 then some 1 else none)

/-- The retry/backoff policy as the spec's §5 words it, for comparison
with the code: attempts are numbered `1..retries`; the call succeeds at
the first attempt whose request succeeds; between consecutive attempts
(i.e. after every failed attempt except the last) it sleeps
`2 ^ attempt + jitter attempt`; the final error propagates only after all
`retries` attempts are exhausted. -/
def specRetryPolicy (oracle : Nat → Bool) (jitter : Nat → ℚ) (retries : Nat) :
    List ℚ × Option Nat :=
  match (List.range' 1 retries).find? oracle with
  | some a => ((List.range' 1 (a - 1)).map (backoff_sleep jitter), some a)
  | none => ((List.range' 1 (retries - 1)).map (backoff_sleep jitter), none)

/-! ### Atomic fetch (`download`) -/

/-- The filesystem-visible steps of `download(url, dst)` (b44_interface.py
lines 104-111): open the temp file for writing (truncating it), append
each non-empty chunk of the body, and finally `tmp.replace(dst)`. -/
inductive DStep where
  | openTmp
  | writeChunk (c : String)
  | rename
deriving DecidableEq, Repr

/-- A flat filesystem: path to file content, `none` when absent. -/
abbrev FS := String → Option String

/-- `dst.with_suffix(dst.suffix + ".part")`: the temp path next to the
destination, in the same directory. -/
def tmpOf (dst : String) : String := dst ++ ".part"

/-- Effect of one `download` step on the filesystem. `rename` is
`os.replace`: atomic move of the temp file onto the destination. -/
def applyStep (dst : String) (fs : FS) : DStep → FS
  | .openTmp => fun p => if p = tmpOf dst then some "" else fs p
  | .writeChunk c => fun p =>
      if p = tmpOf dst then some (((fs (tmpOf dst)).getD "") ++ c) else fs p
  | .rename => fun p =>
      if p = dst then fs (tmpOf dst)
      else if p = tmpOf dst then none
      else fs p

/-- Run a list of steps in order. -/
def runSteps (dst : String) (fs : FS) (steps : List DStep) : FS :=
  steps.foldl (applyStep dst) fs

/-- The full step sequence of one `download` call whose connection
establishment (via `http_get`, `stream=True`) succeeded iff `conn_ok`;
`body` is the chunk sequence of `iter_content`, of which empty chunks are
skipped (`if chunk:`).  On connection failure the temp file is never even
opened. -/
def downloadSteps (conn_ok : Bool) (body : List String) : List DStep :=
  if conn_ok then
    DStep.openTmp :: (body.filter fun c => c ≠ "").map DStep.writeChunk ++ [DStep.rename]
  else []

/-- The complete content that a finished `download` leaves at `dst`. -/
def fullBody (body : List String) : String :=
  String.join (body.filter fun c => c ≠ "")

/-! ### Artifact writer (`write_run_artifacts`) -/

/-- `r.get(k, "")` on a row dict (rows are association lists with unique
keys in insertion order). -/
def rowGet (r : List (String × String)) (k : String) : String :=
  ((r.find? fun kv => kv.1 = k).map Prod.snd).getD ""

/-- The CSV artifact's content: either a table (header row plus body
rows, as written by `csv.DictWriter`), or the single-line placeholder
document `"message\nno data rows\n"` written when there are zero rows. -/
inductive CsvDoc where
  | table (header : List String) (body : List (List String))
  | noData
deriving DecidableEq, Repr

/-- The pair of files left by `write_run_artifacts`: the JSON metrics
document `{"run_successful": ..., "error_messages": ...}` and the CSV. -/
structure Artifacts where
  json_run_successful : Bool
  json_error_messages : List String
  csv : CsvDoc
deriving DecidableEq, Repr

/-- `write_run_artifacts(job_id, out_dir, success=..., errors=..., rows=...)`
(b44_interface.py lines 222-248).  Both files are written unconditionally;
the CSV header is `rows[0].keys()` and every row is written as
`{k: r.get(k, "") for k in hdr}`. -/
def write_run_artifacts (success : Bool) (errors : List String)
    (rows : List (List (String × String))) : Artifacts :=
  let csv := match rows with
    | [] => CsvDoc.noData
    | r0 :: _ =>
        let hdr := r0.map Prod.fst
        CsvDoc.table hdr (rows.map fun r => hdr.map (rowGet r))
  ⟨success, errors, csv⟩

/-! ### Publisher (`s3_upload`) -/

/-- The error codes `s3_upload` distinguishes on the first upload
attempt's `ClientError`. -/
inductive S3Code where
  | accessControlListNotSupported
  | invalidRequest
  | other (s : String)
deriving DecidableEq, Repr

/-- Outcomes of the S3 calls one `s3_upload` invocation can make. -/
structure S3Env where
  upload_plain : Except S3Code Unit
  upload_acl : Except S3Code Unit
  region_lookup : Except Unit (Option String)
  session_region : Option String
deriving Repr

/-- A returned URL: the default virtual-hosted bucket URL
`https://{bucket}.s3.{region}.amazonaws.com/{key}`, or a presigned URL
for `get_object` with an expiry. -/
inductive Url where
  | virtualHosted (bucket region key : String)
  | presigned (bucket key : String) (expires : Int)
deriving DecidableEq, Repr

/-- The `_region()` helper of `s3_upload`: bucket location, with
`None`/empty mapped to `us-east-1`, falling back to the session region
(or `us-east-1`) when the lookup raises `ClientError`. -/
def s3Region (env : S3Env) : String :=
  match env.region_lookup with
  | .ok loc => match loc with
      | none => "us-east-1"
      | some l => if l = "" then "us-east-1" else l
  | .error _ => env.session_region.getD "us-east-1"

/-- `s3_upload(local_path, bucket, key, public=..., presign_seconds=...)`
(b44_interface.py lines 139-179): upload without ACL first; on a
`ClientError` whose code is not one of the ACLs-disabled codes, retry once
with a public ACL when `public` is set, otherwise re-raise; then build the
default virtual-hosted URL, replaced by a presigned URL exactly when the
bucket is private and a positive expiry is configured. -/
def s3_upload (env : S3Env) (bucket key : String)
    (public : Bool) (presign_seconds : Int) : Except S3Code Url :=
  let uploaded : Except S3Code Unit :=
    match env.upload_plain with
    | .ok _ => .ok ()
    | .error e =>
        if e = .accessControlListNotSupported ∨ e = .invalidRequest then .error e
        else if public then env.upload_acl
        else .error e
  match uploaded with
  | .error e => .error e
  | .ok _ =>
      let url := Url.virtualHosted bucket (s3Region env) key
      .ok (if ¬ public ∧ presign_seconds > 0
           then Url.presigned bucket key presign_seconds
           else url)

/-! ### JobRunner seam (`tiles_pipeline`, main_handler.py) -/

/-- Outcomes of the external calls `tiles_pipeline` makes.
`parse` is `check_and_parse_input` (which can itself raise: file decoding
errors, and a `NameError` on its empty-input branch, which returns an
undefined variable); `collab` is the `process_with_dask_pipeline` /
`max_splicing_delta` collaborator; `read_out` is the attempt to read the
collaborator's output CSV back (`none` when `out_path` does not exist). -/
structure PipelineEnv where
  parse : Except String (List String)
  collab : Except String Unit
  read_out : Option (Except String (List (List (String × String))))

/-- `tiles_pipeline(input_path, job_id)` (main_handler.py lines 18-106).
There is no exception handler around `check_and_parse_input` or around the
`process_with_dask_pipeline` call: a fault there propagates to the caller
(modelled as `.error`).  Only the read-back of the output CSV is guarded,
appending a warning to `errors`.  On normal return the function always
reports `success = True` and `run_successful = True`. -/
def tiles_pipeline (env : PipelineEnv) : Except String RunResult :=
  match env.parse with
  | .error e => .error e
  | .ok mutIds =>
      let input_df := if mutIds.length > 5 then mutIds.take 5 else mutIds
      match env.collab with
      | .error e => .error e
      | .ok _ =>
          let st : List (List (String × String)) × List String :=
            match env.read_out with
            | none => ([], [])
            | some (.ok df) => (df, [])
            | some (.error e) =>
                ([], ["Warning: could not read pipeline output for metrics: " ++ e])
          let _ := input_df
          .ok { success := true
                errors := st.2
                rows := st.1
                meta_run_successful := true
                meta_error_messages := st.2 }

/-! ### Derived predicates used by the theorems -/

/-- The entity passes the two guards at the top of the loop body: it has a
non-empty id and file url and is not in the ledger yet. -/
def eligibleB (ledger : Ledger) (e : Entity) : Bool :=
  jobIdOf e ≠ "" && furlOf e ≠ "" && !(decide (jobIdOf e ∈ ledger))

/-- `tiles_pipeline` returned (did not raise). -/
def pipelineOkB : Except String RunResult → Bool
  | .ok _ => true
  | .error _ => false

/-- `tiles_pipeline` returned with `success = True`. -/
def pipelineSuccessB : Except String RunResult → Bool
  | .ok r => r.success
  | .error _ => false

/-- The whole try-block of the loop body runs to the end without raising:
download, pipeline, both uploads and the terminal update all succeed. -/
def happyB (orc : JobOracle) : Bool :=
  orc.download_ok && pipelineOkB orc.pipeline &&
    orc.upload_json_ok && orc.upload_csv_ok && orc.upd_terminal_ok

/-- The job is processed successfully end to end: the try-block completes
and the pipeline reported success (so the terminal status is `completed`). -/
def jobSucceedsB (orc : JobOracle) : Bool :=
  orc.download_ok && pipelineSuccessB orc.pipeline &&
    orc.upload_json_ok && orc.upload_csv_ok && orc.upd_terminal_ok

/-- The statuses successfully delivered to the remote store for job `id`,
in order. -/
def sentStatuses (trace : List Event) (id : String) : List String :=
  trace.filterMap fun ev =>
    match ev with
    | .update i s true => if i = id then some s else none
    | _ => none

/-! ### Concrete fixtures used by the witness theorems -/

/-- Default configuration: `UPDATE_TO_QUEUED` left at its default (on). -/
def cfgD : Config := ⟨true⟩

/-- A well-formed discovered job. -/
def entJ1 : Entity := ⟨some "J1", some "https://x/in.txt", some "in.txt", "processing", false⟩

/-- A second well-formed discovered job. -/
def entJ2 : Entity := ⟨some "J2", some "https://x/in2.txt", some "in2.txt", "processing", false⟩

/-- A successful pipeline result. -/
def okRun : RunResult := ⟨true, [], [], true, []⟩

/-- Oracle: every external call succeeds. -/
def orcHappy : JobOracle := ⟨true, true, true, .ok okRun, true, true, true, true⟩

/-- Oracle: the download raises; everything else would succeed. -/
def orcDlFail : JobOracle := ⟨false, true, true, .ok okRun, true, true, true, true⟩

/-! ### Helper lemmas about the per-job step -/

theorem processEntity_ledger_sub (cfg : Config) (orc : JobOracle) (ledger : Ledger)
    (e : Entity) : ∀ x ∈ ledger, x ∈ (processEntity cfg orc ledger e).1 := by
  intro x hx
  unfold processEntity
  dsimp only
  repeat' split
  all_goals simp_all

theorem processEntity_event_id (cfg : Config) (orc : JobOracle) (ledger : Ledger)
    (e : Entity) : ∀ ev ∈ (processEntity cfg orc ledger e).2.1, ev.idOf = jobIdOf e := by
  intro ev hev
  unfold processEntity at hev
  dsimp only at hev
  repeat' split at hev
  all_goals simp_all [Event.idOf]
  all_goals (cases ev <;> simp_all)
  all_goals tauto

theorem processEntity_skip (cfg : Config) (orc : JobOracle) (ledger : Ledger)
    (e : Entity) (h : jobIdOf e ∈ ledger) :
    processEntity cfg orc ledger e = (ledger, [], 0) := by
  unfold processEntity
  by_cases h0 : jobIdOf e = "" ∨ furlOf e = "" <;> simp [h0, h]

theorem mainLoop_no_events_of_mem (cfg : Config) (orcs : Nat → JobOracle) (id : String) :
    ∀ (entities : List Entity) (i : Nat) (ledger : Ledger), id ∈ ledger →
      ∀ ev ∈ (mainLoop cfg orcs entities i ledger).2.1, ev.idOf ≠ id := by
  intro entities
  induction entities with
  | nil => intro i ledger _ ev hev; simp [mainLoop] at hev
  | cons e rest ih =>
      intro i ledger hmem ev hev
      simp only [mainLoop, List.mem_append] at hev
      rcases hev with hev | hev
      · intro hEq
        have hid := processEntity_event_id cfg (orcs i) ledger e ev hev
        have hm : jobIdOf e ∈ ledger := by rw [← hid, hEq]; exact hmem
        rw [processEntity_skip cfg (orcs i) ledger e hm] at hev
        simp at hev
      · exact ih (i + 1) (processEntity cfg (orcs i) ledger e).1
          (processEntity_ledger_sub cfg (orcs i) ledger e id hmem) ev hev

/-- C1: for every job id already present in the ledger (`downloaded_ids`),
an invocation of the Orchestrator main loop performs zero fetch, process,
publish and report operations for that id: every event in the produced
trace concerns a different job id. -/
theorem claim1_ledger_idempotency (key : String) (cfg : Config) (listing : List Entity)
    (orcs : Nat → JobOracle) (ledger0 : Ledger) (id : String) (out : MainOutput)
    (hmem : id ∈ ledger0) (hrun : main_run key cfg listing orcs ledger0 = .ok out) :
    ∀ ev ∈ out.trace, ev.idOf ≠ id := by
  by_cases hk : badKey key
  · simp [main_run, hk] at hrun
  · simp only [main_run, hk, Bool.false_eq_true, if_false, Except.ok.injEq] at hrun
    subst hrun
    exact mainLoop_no_events_of_mem cfg orcs id (get_processing listing 100) 0 ledger0 hmem

/-- Witness for C1: with `J1` already in the ledger and both `J1` and a
fresh `J2` discovered, the run touches only `J2`. -/
theorem claim1_ledger_idempotency_witness :
    ("J1" ∈ ["J1"]) ∧
    (∀ ev ∈ (Tiles.MainOutput.mk ["J2", "J1"]
        [.fetch "J2", .update "J2" "queued" true, .update "J2" "running" true,
         .artifacts "J2", .publish "J2" "json" true, .publish "J2" "csv" true,
         .update "J2" "completed" true, .record "J2"] 1 (.handled 1)).trace,
       ev.idOf ≠ "J1") :=
  ⟨by decide,
   claim1_ledger_idempotency "k" cfgD [entJ1, entJ2] (fun _ => orcHappy) ["J1"] "J1" _
     (by decide) (by decide)⟩

/-- Branch computation: the whole try-block succeeds (download, pipeline,
both uploads, terminal update), so the loop body emits the full event
sequence, increments the counter and records the job. -/
theorem processEntity_happy (cfg : Config) (orc : JobOracle) (ledger : Ledger) (e : Entity)
    (r : RunResult)
    (hid : jobIdOf e ≠ "") (hfurl : furlOf e ≠ "") (hmem : jobIdOf e ∉ ledger)
    (hdl : orc.download_ok = true) (hpipe : orc.pipeline = .ok r)
    (hjson : orc.upload_json_ok = true) (hcsv : orc.upload_csv_ok = true)
    (hterm : orc.upd_terminal_ok = true) :
    processEntity cfg orc ledger e =
      (jobIdOf e :: ledger,
       Event.fetch (jobIdOf e) ::
         (if cfg.update_to_queued then [Event.update (jobIdOf e) "queued" orc.upd_queued_ok] else []) ++
         [Event.update (jobIdOf e) "running" orc.upd_running_ok,
          Event.artifacts (jobIdOf e),
          Event.publish (jobIdOf e) "json" true, Event.publish (jobIdOf e) "csv" true,
          Event.update (jobIdOf e) (if r.success then "completed" else "failed") true,
          Event.record (jobIdOf e)], 1) := by
  unfold processEntity
  dsimp only
  rw [if_neg (by tauto), if_neg hmem]
  simp [hdl, hpipe, hjson, hcsv, hterm]

/-- Counterexample to C2 as stated: a job whose download raises is
reported `failed` (the terminal report succeeds), yet no ledger entry is
written — the exception handler of the loop body never touches
`downloaded_ids`. -/
theorem claim2_counterexample :
    main_run "k" cfgD [entJ1] (fun _ => orcDlFail) [] =
      .ok ⟨[], [.fetch "J1", .update "J1" "failed" true], 0, .none_found⟩ ∧
    (Event.update "J1" "failed" true) ∈ [Event.fetch "J1", Event.update "J1" "failed" true] ∧
    (Event.record "J1") ∉ [Event.fetch "J1", Event.update "J1" "failed" true] := by decide

/-- C2 (amended): a ledger entry is created exactly once, and only
immediately after the success-path terminal update (`completed`, or
`failed` when the pipeline returned `success=False`) has succeeded; a job
that faults anywhere in the try block — including an unrecoverable
terminal update — gets no ledger entry at all (and is retried on the next
invocation). -/
theorem claim2_ledger_record (cfg : Config) (orc : JobOracle) (ledger : Ledger) (e : Entity) :
    ((eligibleB ledger e && happyB orc) = true →
      ((processEntity cfg orc ledger e).1 = jobIdOf e :: ledger ∧
       (processEntity cfg orc ledger e).2.1.count (.record (jobIdOf e)) = 1 ∧
       ∃ pre, (processEntity cfg orc ledger e).2.1 =
           pre ++ [.update (jobIdOf e)
                     (if pipelineSuccessB orc.pipeline then "completed" else "failed") true,
                   .record (jobIdOf e)])) ∧
    ((eligibleB ledger e && happyB orc) = false →
      ((processEntity cfg orc ledger e).1 = ledger ∧
       ∀ i, Event.record i ∉ (processEntity cfg orc ledger e).2.1)) := by
  constructor
  · intro h
    simp only [eligibleB, happyB, Bool.and_eq_true, decide_eq_true_eq, Bool.not_eq_true',
      decide_eq_false_iff_not, ne_eq] at h
    obtain ⟨⟨⟨hid, hfurl⟩, hmem⟩, ⟨⟨⟨hdl, hpl⟩, hjson⟩, hcsv⟩, hterm⟩ := h
    rcases hpipe : orc.pipeline with m | r
    · rw [hpipe] at hpl; simp [pipelineOkB] at hpl
    · rw [processEntity_happy cfg orc ledger e r hid hfurl hmem hdl hpipe hjson hcsv hterm]
      refine ⟨rfl, ?_, ?_⟩
      · cases cfg.update_to_queued <;>
          simp [List.count_cons, List.count_append, beq_iff_eq]
      · refine ⟨Event.fetch (jobIdOf e) ::
          (if cfg.update_to_queued then [Event.update (jobIdOf e) "queued" orc.upd_queued_ok] else []) ++
          [Event.update (jobIdOf e) "running" orc.upd_running_ok,
           Event.artifacts (jobIdOf e),
           Event.publish (jobIdOf e) "json" true, Event.publish (jobIdOf e) "csv" true], ?_⟩
        simp [pipelineSuccessB, hpipe]
  · intro h
    unfold processEntity
    dsimp only
    repeat' split
    all_goals simp_all [eligibleB, happyB, pipelineOkB]

/-- Witness for C2 (amended): a fresh job whose whole try-block succeeds
is recorded exactly once, right after its terminal update. -/
theorem claim2_ledger_record_witness :
    (eligibleB [] entJ1 && happyB orcHappy) = true ∧
    ((processEntity cfgD orcHappy [] entJ1).1 = jobIdOf entJ1 :: [] ∧
     (processEntity cfgD orcHappy [] entJ1).2.1.count (.record (jobIdOf entJ1)) = 1 ∧
     ∃ pre, (processEntity cfgD orcHappy [] entJ1).2.1 =
         pre ++ [.update (jobIdOf entJ1)
                   (if pipelineSuccessB orcHappy.pipeline then "completed" else "failed") true,
                 .record (jobIdOf entJ1)]) :=
  ⟨by decide, (claim2_ledger_record cfgD orcHappy [] entJ1).1 (by decide)⟩

/-- C10: a polled candidate whose id or file_url is missing or empty is
skipped before any side effect: no fetch, no status update, no publish,
no ledger write, no failed report, and no contribution to the summary
count. -/
theorem claim10_invalid_candidate_skipped (cfg : Config) (orc : JobOracle) (ledger : Ledger)
    (e : Entity) (h : jobIdOf e = "" ∨ furlOf e = "") :
    processEntity cfg orc ledger e = (ledger, [], 0) := by
  unfold processEntity
  dsimp only
  rw [if_pos h]

/-- A candidate with a missing `file_url`. -/
def entBad : Entity := ⟨some "J9", none, none, "processing", false⟩

/-- Witness for C10: the candidate `J9` lacking a file url produces no
events, no ledger change and no count. -/
theorem claim10_invalid_candidate_skipped_witness :
    (jobIdOf entBad = "" ∨ furlOf entBad = "") ∧
    processEntity cfgD orcHappy [] entBad = ([], [], 0) :=
  ⟨by decide, claim10_invalid_candidate_skipped cfgD orcHappy [] entBad (by decide)⟩

/-- C4: under the default configuration and a remote store that accepts
status updates, a successfully processed job sends exactly
`queued, running, completed` in that order, and any failing job sends a
prefix of `queued, running` followed by `failed`. -/
theorem claim4_status_sequence (cfg : Config) (orc : JobOracle) (ledger : Ledger) (e : Entity)
    (helig : eligibleB ledger e = true)
    (hq : cfg.update_to_queued = true)
    (hoq : orc.upd_queued_ok = true) (hor : orc.upd_running_ok = true)
    (hot : orc.upd_terminal_ok = true) (hof : orc.upd_failed_ok = true) :
    (jobSucceedsB orc = true →
      sentStatuses (processEntity cfg orc ledger e).2.1 (jobIdOf e) =
        ["queued", "running", "completed"]) ∧
    (jobSucceedsB orc = false →
      ∃ p, p <+: ["queued", "running"] ∧
        sentStatuses (processEntity cfg orc ledger e).2.1 (jobIdOf e) = p ++ ["failed"]) := by
  simp only [eligibleB, Bool.and_eq_true, decide_eq_true_eq, Bool.not_eq_true',
    decide_eq_false_iff_not, ne_eq] at helig
  obtain ⟨⟨hid, hfurl⟩, hmem⟩ := helig
  constructor
  · intro hs
    simp only [jobSucceedsB, Bool.and_eq_true] at hs
    obtain ⟨⟨⟨⟨hdl, hps⟩, hj⟩, hc⟩, _⟩ := hs
    rcases hpipe : orc.pipeline with m | r
    · rw [hpipe] at hps; simp [pipelineSuccessB] at hps
    · have hsucc : r.success = true := by
        rw [hpipe] at hps; simpa [pipelineSuccessB] using hps
      rw [processEntity_happy cfg orc ledger e r hid hfurl hmem hdl hpipe hj hc hot]
      simp [sentStatuses, hq, hoq, hor, hsucc]
  · intro hs
    cases hdl : orc.download_ok with
    | false =>
        refine ⟨[], by decide, ?_⟩
        unfold processEntity
        dsimp only
        rw [if_neg (by tauto), if_neg hmem]
        simp [hdl, sentStatuses, hof]
    | true =>
        rcases hpipe : orc.pipeline with m | r
        · refine ⟨["queued", "running"], by decide, ?_⟩
          unfold processEntity
          dsimp only
          rw [if_neg (by tauto), if_neg hmem]
          simp [hdl, hpipe, sentStatuses, hq, hoq, hor, hof]
        · cases hj : orc.upload_json_ok with
          | false =>
              refine ⟨["queued", "running"], by decide, ?_⟩
              unfold processEntity
              dsimp only
              rw [if_neg (by tauto), if_neg hmem]
              simp [hdl, hpipe, hj, sentStatuses, hq, hoq, hor, hof]
          | true =>
              cases hc : orc.upload_csv_ok with
              | false =>
                  refine ⟨["queued", "running"], by decide, ?_⟩
                  unfold processEntity
                  dsimp only
                  rw [if_neg (by tauto), if_neg hmem]
                  simp [hdl, hpipe, hj, hc, sentStatuses, hq, hoq, hor, hof]
              | true =>
                  have hsucc : r.success = false := by
                    simp only [jobSucceedsB, hdl, hpipe, hj, hc, hot,
                      pipelineSuccessB, Bool.and_true, Bool.true_and] at hs
                    exact hs
                  refine ⟨["queued", "running"], by decide, ?_⟩
                  rw [processEntity_happy cfg orc ledger e r hid hfurl hmem hdl hpipe hj hc hot]
                  simp [sentStatuses, hq, hoq, hor, hsucc]


/-- Witness for C4: the all-succeeding oracle on a fresh job. -/
theorem claim4_status_sequence_witness :
    eligibleB [] entJ1 = true ∧
    ((jobSucceedsB orcHappy = true →
      sentStatuses (processEntity cfgD orcHappy [] entJ1).2.1 (jobIdOf entJ1) =
        ["queued", "running", "completed"]) ∧
    (jobSucceedsB orcHappy = false →
      ∃ p, p <+: ["queued", "running"] ∧
        sentStatuses (processEntity cfgD orcHappy [] entJ1).2.1 (jobIdOf entJ1) =
          p ++ ["failed"])) :=
  ⟨by decide, claim4_status_sequence cfgD orcHappy [] entJ1 (by decide) rfl rfl rfl rfl rfl⟩


/-- C9: a missing or placeholder API key makes the run exit with code 2
independently of the listing and of any oracle (so before any network
activity); with a good key the run always returns normally (exit 0) and
prints the summary count (or "none found"); and every per-job fault is
caught inside the loop body, contributes nothing to the count, and is
followed by a best-effort `failed` report as the job's last action. -/
theorem claim9_exit_behavior (key : String) (cfg : Config) (listing : List Entity)
    (orcs : Nat → JobOracle) (ledger0 : Ledger) :
    (badKey key = true →
      ∀ (listing2 : List Entity) (orcs2 : Nat → JobOracle),
        main_run key cfg listing2 orcs2 ledger0 = .error 2) ∧
    (badKey key = false →
      ∃ out : MainOutput, main_run key cfg listing orcs ledger0 = .ok out ∧
        out.summary =
          (if out.new_downloads = 0 then .none_found else .handled out.new_downloads)) ∧
    (∀ (orc : JobOracle) (ledger : Ledger) (e : Entity),
      eligibleB ledger e = true → happyB orc = false →
        (processEntity cfg orc ledger e).2.2 = 0 ∧
        ∃ pre, (processEntity cfg orc ledger e).2.1 =
          pre ++ [.update (jobIdOf e) "failed" orc.upd_failed_ok]) := by
  refine ⟨fun hk listing2 orcs2 => by simp [main_run, hk], fun hk => ?_, ?_⟩
  · refine ⟨⟨(mainLoop cfg orcs (get_processing listing 100) 0 ledger0).1,
      (mainLoop cfg orcs (get_processing listing 100) 0 ledger0).2.1,
      (mainLoop cfg orcs (get_processing listing 100) 0 ledger0).2.2,
      if (mainLoop cfg orcs (get_processing listing 100) 0 ledger0).2.2 = 0 then .none_found
      else .handled (mainLoop cfg orcs (get_processing listing 100) 0 ledger0).2.2⟩, ?_, rfl⟩
    simp [main_run, hk]
  intro orc ledger e helig hnh
  simp only [eligibleB, Bool.and_eq_true, decide_eq_true_eq, Bool.not_eq_true',
    decide_eq_false_iff_not, ne_eq] at helig
  obtain ⟨⟨hid, hfurl⟩, hmem⟩ := helig
  cases hdl : orc.download_ok with
  | false =>
      unfold processEntity
      dsimp only
      rw [if_neg (by tauto), if_neg hmem]
      simp only [hdl, Bool.false_eq_true, not_false_eq_true, if_true]
      exact ⟨trivial, [.fetch (jobIdOf e)], rfl⟩
  | true =>
      rcases hpipe : orc.pipeline with m | r
      · unfold processEntity
        dsimp only
        rw [if_neg (by tauto), if_neg hmem]
        simp only [hdl, hpipe, not_true_eq_false, if_false]
        exact ⟨trivial, Event.fetch (jobIdOf e) ::
          (if cfg.update_to_queued then [Event.update (jobIdOf e) "queued" orc.upd_queued_ok] else []) ++
          [Event.update (jobIdOf e) "running" orc.upd_running_ok], rfl⟩
      · cases hj : orc.upload_json_ok with
        | false =>
            unfold processEntity
            dsimp only
            rw [if_neg (by tauto), if_neg hmem]
            simp only [hdl, hpipe, hj, not_true_eq_false, if_false, Bool.false_eq_true,
              not_false_eq_true, if_true]
            refine ⟨trivial, (Event.fetch (jobIdOf e) ::
              (if cfg.update_to_queued then [Event.update (jobIdOf e) "queued" orc.upd_queued_ok] else []) ++
              [Event.update (jobIdOf e) "running" orc.upd_running_ok]) ++
              [Event.artifacts (jobIdOf e), Event.publish (jobIdOf e) "json" false], by simp⟩
        | true =>
            cases hc : orc.upload_csv_ok with
            | false =>
                unfold processEntity
                dsimp only
                rw [if_neg (by tauto), if_neg hmem]
                simp only [hdl, hpipe, hj, hc, not_true_eq_false, if_false, Bool.false_eq_true,
                  not_false_eq_true, if_true]
                refine ⟨trivial, (Event.fetch (jobIdOf e) ::
                  (if cfg.update_to_queued then [Event.update (jobIdOf e) "queued" orc.upd_queued_ok] else []) ++
                  [Event.update (jobIdOf e) "running" orc.upd_running_ok]) ++
                  [Event.artifacts (jobIdOf e), Event.publish (jobIdOf e) "json" true,
                   Event.publish (jobIdOf e) "csv" false], by simp⟩
            | true =>
                cases ht : orc.upd_terminal_ok with
                | false =>
                    unfold processEntity
                    dsimp only
                    rw [if_neg (by tauto), if_neg hmem]
                    simp only [hdl, hpipe, hj, hc, ht, not_true_eq_false, if_false,
                      Bool.false_eq_true, not_false_eq_true, if_true]
                    refine ⟨trivial, (Event.fetch (jobIdOf e) ::
                      (if cfg.update_to_queued then [Event.update (jobIdOf e) "queued" orc.upd_queued_ok] else []) ++
                      [Event.update (jobIdOf e) "running" orc.upd_running_ok]) ++
                      [Event.artifacts (jobIdOf e), Event.publish (jobIdOf e) "json" true,
                       Event.publish (jobIdOf e) "csv" true,
                       Event.update (jobIdOf e) (if r.success then "completed" else "failed") false], by simp⟩
                | true =>
                    exfalso
                    simp [happyB, hdl, hpipe, hj, hc, ht, pipelineOkB] at hnh


/-- Witness for C9: the placeholder key exits with code 2. -/
theorem claim9_exit_behavior_witness :
    badKey "REPLACE_WITH_YOUR_API_KEY" = true ∧
    main_run "REPLACE_WITH_YOUR_API_KEY" cfgD [entJ1] (fun _ => orcHappy) [] = .error 2 :=
  ⟨by decide,
   (claim9_exit_behavior "REPLACE_WITH_YOUR_API_KEY" cfgD [entJ1] (fun _ => orcHappy) []).1
     (by decide) [entJ1] (fun _ => orcHappy)⟩


/-- Counterexample to C6 as stated: a fault of the external collaborator
(`process_with_dask_pipeline`) propagates out of `tiles_pipeline`
unconverted — no failed `RunResult` is produced at the JobRunner seam. -/
theorem claim6_counterexample :
    tiles_pipeline ⟨.ok ["BRCA:c.68_69delAG"], .error "ComputationError: cluster fault", none⟩ =
      .error "ComputationError: cluster fault" := by rfl

/-- C6 (amended): `tiles_pipeline` has no handler around the collaborator
call, so a collaborator fault propagates to the Orchestrator as a raised
exception; there it is caught by the per-job handler, which skips
artifact writing and publishing entirely, writes no ledger entry, counts
nothing, and ends the job with one best-effort `failed` report. -/
theorem claim6_fault_propagation (env : PipelineEnv) (ids : List String) (m : String)
    (hp : env.parse = .ok ids) (hc : env.collab = .error m) :
    tiles_pipeline env = .error m ∧
    ∀ (cfg : Config) (orc : JobOracle) (ledger : Ledger) (e : Entity),
      eligibleB ledger e = true → orc.download_ok = true → orc.pipeline = .error m →
        ((processEntity cfg orc ledger e).1 = ledger ∧
         (processEntity cfg orc ledger e).2.2 = 0 ∧
         (∀ i, Event.artifacts i ∉ (processEntity cfg orc ledger e).2.1) ∧
         (∀ i a b, Event.publish i a b ∉ (processEntity cfg orc ledger e).2.1) ∧
         (processEntity cfg orc ledger e).2.1.getLast? =
           some (.update (jobIdOf e) "failed" orc.upd_failed_ok)) := by
  constructor
  · simp [tiles_pipeline, hp, hc]
  · intro cfg orc ledger e helig hdl hpipe
    simp only [eligibleB, Bool.and_eq_true, decide_eq_true_eq, Bool.not_eq_true',
      decide_eq_false_iff_not, ne_eq] at helig
    obtain ⟨⟨hid, hfurl⟩, hmem⟩ := helig
    unfold processEntity
    dsimp only
    rw [if_neg (by tauto), if_neg hmem]
    simp only [hdl, hpipe, not_true_eq_false, if_false]
    refine ⟨trivial, trivial, ?_, ?_, ?_⟩
    · intro i
      cases cfg.update_to_queued <;> simp
    · intro i a b
      cases cfg.update_to_queued <;> simp
    · rw [List.getLast?_concat]


/-- The faulting pipeline environment of the counterexample. -/
def envCE : PipelineEnv :=
  ⟨.ok ["BRCA:c.68_69delAG"], .error "ComputationError: cluster fault", none⟩

/-- Oracle: the pipeline call raises; everything around it would succeed. -/
def orcPipeFail : JobOracle :=
  ⟨true, true, true, .error "ComputationError: cluster fault", true, true, true, true⟩

/-- Witness for C6 (amended), at the concrete faulting environment and a
fresh eligible job. -/
theorem claim6_fault_propagation_witness :
    envCE.parse = .ok ["BRCA:c.68_69delAG"] ∧
    envCE.collab = .error "ComputationError: cluster fault" ∧
    (tiles_pipeline envCE = .error "ComputationError: cluster fault" ∧
     ∀ (cfg : Config) (orc : JobOracle) (ledger : Ledger) (e : Entity),
       eligibleB ledger e = true → orc.download_ok = true →
         orc.pipeline = .error "ComputationError: cluster fault" →
         ((processEntity cfg orc ledger e).1 = ledger ∧
          (processEntity cfg orc ledger e).2.2 = 0 ∧
          (∀ i, Event.artifacts i ∉ (processEntity cfg orc ledger e).2.1) ∧
          (∀ i a b, Event.publish i a b ∉ (processEntity cfg orc ledger e).2.1) ∧
          (processEntity cfg orc ledger e).2.1.getLast? =
            some (.update (jobIdOf e) "failed" orc.upd_failed_ok))) :=
  ⟨rfl, rfl, claim6_fault_propagation envCE ["BRCA:c.68_69delAG"]
    "ComputationError: cluster fault" rfl rfl⟩


/-- Generalisation of `specRetryPolicy` to an arbitrary first attempt
number, for the induction. -/
def specRetryFrom (oracle : Nat → Bool) (jitter : Nat → ℚ) (a n : Nat) : List ℚ × Option Nat :=
  match (List.range' a n).find? oracle with
  | some k => ((List.range' a (k - a)).map (backoff_sleep jitter), some k)
  | none => ((List.range' a (n - 1)).map (backoff_sleep jitter), none)

/-- The retry loop of `http_get` computes exactly the spec policy,
whatever the attempt outcomes and jitter draws. -/
theorem httpAttempts_spec (oracle : Nat → Bool) (jitter : Nat → ℚ) :
    ∀ (n a : Nat), httpAttempts oracle jitter a n = specRetryFrom oracle jitter a n := by
  intro n
  induction n with
  | zero => intro a; simp [httpAttempts, specRetryFrom, List.range']
  | succ m ih =>
      intro a
      unfold httpAttempts specRetryFrom
      rw [List.range'_succ a m 1, List.find?_cons]
      cases ho : oracle a with
      | true => simp [Nat.sub_self, List.range']
      | false =>
          cases m with
          | zero => simp [List.range']
          | succ m2 =>
              simp only [Nat.succ_ne_zero, if_false, Nat.add_eq, Nat.add_zero]
              rw [ih (a + 1)]
              unfold specRetryFrom
              cases hf : (List.range' (a + 1) (m2 + 1)).find? oracle with
              | some k =>
                  have hk : a + 1 ≤ k := by
                    have hm := List.mem_of_find?_eq_some hf
                    rw [List.mem_range'_1] at hm
                    omega
                  have h1 : k - a = (k - (a + 1)) + 1 := by omega
                  simp only [hf]
                  rw [h1, List.range'_succ a (k - (a + 1)) 1]
                  simp
              | none =>
                  simp only [hf, Nat.add_sub_cancel]
                  rw [List.range'_succ a m2 1]
                  simp

/-- Counterexample to C3 as stated: on an endpoint that fails the first
attempt and would succeed on the second, `update_entity` propagates the
error after a single attempt and no backoff sleep, while the shared
policy (and `http_get`, which implements it) succeeds on attempt 2 after
one sleep — so status updates do NOT apply the retry/backoff policy. -/
theorem claim3_counterexample :
    update_entity (fun a => a != 1) = ([], none) ∧
    http_get (fun a => a != 1) (fun _ => 0) 3 = ([2 ^ 1 + 0], some 2) ∧
    specRetryPolicy (fun a => a != 1) (fun _ => 0) 3 = ([2 ^ 1 + 0], some 2) :=
  ⟨rfl, rfl, rfl⟩

/-- C3 (amended): the candidate listing and the fetch stream's connection
establishment go through `http_get`, which implements the shared
retry/backoff policy exactly (up to `retries` attempts, sleeping
`2 ^ attempt + jitter` between attempts, the final error propagating only
after exhaustion); `update_entity`, used for every status/result update,
makes exactly one attempt with no sleeps and propagates its error
immediately. -/
theorem claim3_retry_policy :
    (∀ (oracle : Nat → Bool) (jitter : Nat → ℚ) (retries : Nat),
      http_get oracle jitter retries = specRetryPolicy oracle jitter retries) ∧
    (∀ oracle : Nat → Bool, update_entity oracle = ([], if oracle 1 then some 1 else none)) := by
  constructor
  · intro oracle jitter retries
    rw [http_get, httpAttempts_spec oracle jitter retries 1]
    rfl
  · intro oracle; rfl


/-- `String.join` unfolds over cons. -/
theorem join_cons (c : String) (cs : List String) :
    String.join (c :: cs) = c ++ String.join cs := by
  apply String.ext
  simp [String.join_eq, String.data_append]

/-- The temp path is distinct from the destination path. -/
theorem tmpOf_ne (dst : String) : tmpOf dst ≠ dst := by
  intro h
  have hl := congrArg String.length h
  rw [tmpOf, String.length_append] at hl
  have h5 : (".part" : String).length = 5 := rfl
  omega

/-- Any step sequence free of the final rename leaves the destination
path untouched. -/
theorem runSteps_dst_unchanged (dst : String) (steps : List DStep)
    (h : DStep.rename ∉ steps) : ∀ fs : FS, runSteps dst fs steps dst = fs dst := by
  induction steps with
  | nil => intro fs; rfl
  | cons s rest ih =>
      intro fs
      have hs : s ≠ DStep.rename := by
        intro hh
        exact h (hh ▸ List.mem_cons_self s rest)
      have hrest : DStep.rename ∉ rest := fun hh => h (List.mem_cons_of_mem s hh)
      have hstep : applyStep dst fs s dst = fs dst := by
        have hne : ¬ (dst = tmpOf dst) := fun hh => tmpOf_ne dst hh.symm
        cases s with
        | openTmp => simp [applyStep, hne]
        | writeChunk c => simp [applyStep, hne]
        | rename => exact absurd rfl hs
      calc runSteps dst fs (s :: rest) dst
          = runSteps dst (applyStep dst fs s) rest dst := rfl
        _ = applyStep dst fs s dst := ih hrest (applyStep dst fs s)
        _ = fs dst := hstep

/-- Writing a chunk sequence appends their concatenation to the temp
file. -/
theorem runSteps_writes_tmp (dst : String) :
    ∀ (l : List String) (fs : FS) (s : String), fs (tmpOf dst) = some s →
      runSteps dst fs (l.map DStep.writeChunk) (tmpOf dst) = some (s ++ String.join l) := by
  intro l
  induction l with
  | nil =>
      intro fs s h
      have : s ++ String.join [] = s := String.append_empty s
      rw [this] -- goal: runSteps dst fs [] (tmpOf dst) = some s
      exact h
  | cons c cs ih =>
      intro fs s h
      have hstep : applyStep dst fs (DStep.writeChunk c) (tmpOf dst) = some (s ++ c) := by
        simp [applyStep, h]
      calc runSteps dst fs ((c :: cs).map DStep.writeChunk) (tmpOf dst)
          = runSteps dst (applyStep dst fs (DStep.writeChunk c)) (cs.map DStep.writeChunk) (tmpOf dst) := rfl
        _ = some ((s ++ c) ++ String.join cs) := ih (applyStep dst fs (DStep.writeChunk c)) (s ++ c) hstep
        _ = some (s ++ String.join (c :: cs)) := by rw [join_cons, String.append_assoc]

/-- A download that runs all its steps leaves the complete body at the
destination. -/
theorem download_complete (dst : String) (fs : FS) (body : List String) :
    runSteps dst fs (downloadSteps true body) dst = some (fullBody body) := by
  have h0 : applyStep dst fs DStep.openTmp (tmpOf dst) = some "" := by
    simp [applyStep]
  have htmp := runSteps_writes_tmp dst (body.filter fun c => c ≠ "")
    (applyStep dst fs DStep.openTmp) "" h0
  rw [String.empty_append] at htmp
  rw [downloadSteps, if_pos rfl, runSteps, List.foldl_append, List.foldl_cons]
  simp only [List.foldl_cons, List.foldl_nil]
  rw [show ∀ g : FS, applyStep dst g DStep.rename dst = g (tmpOf dst) from
    fun g => by simp [applyStep]]
  exact htmp

/-- C5: the fetch is atomic: however many of the download's filesystem
steps execute before an interruption, the destination path holds either
exactly what it held before the call or the complete body; and a download
that runs to completion (connection established, all chunks written,
rename performed) leaves exactly the complete body at the destination. -/
theorem claim5_atomic_fetch (dst : String) (fs : FS) (conn_ok : Bool) (body : List String) (k : Nat) :
    (runSteps dst fs ((downloadSteps conn_ok body).take k) dst = fs dst ∨
     runSteps dst fs ((downloadSteps conn_ok body).take k) dst = some (fullBody body)) ∧
    runSteps dst fs (downloadSteps true body) dst = some (fullBody body) := by
  refine ⟨?_, download_complete dst fs body⟩
  cases conn_ok with
  | false => left; simp [downloadSteps, runSteps]
  | true =>
      set l := body.filter (fun c => c ≠ "") with hl
      have hsteps : downloadSteps true body =
          (DStep.openTmp :: l.map DStep.writeChunk) ++ [DStep.rename] := by
        simp [downloadSteps, hl]
      by_cases hk : k ≤ (DStep.openTmp :: l.map DStep.writeChunk).length
      · left
        rw [hsteps, List.take_append_of_le_length hk]
        apply runSteps_dst_unchanged
        intro hmem
        have hnr : DStep.rename ∉ (DStep.openTmp :: l.map DStep.writeChunk) := by
          simp [List.mem_cons, List.mem_map]
        exact hnr (List.mem_of_mem_take hmem)
      · right
        have hlen : (downloadSteps true body).length ≤ k := by
          rw [hsteps]
          push_neg at hk
          simp only [List.length_append, List.length_cons, List.length_map,
            List.length_nil] at hk ⊢
          omega
        rw [List.take_of_length_le hlen]
        exact download_complete dst fs body


/-- C7: `write_run_artifacts` writes the JSON metrics with exactly the
given success flag and error list (also when the flag is false); with
zero rows the CSV is the one-line "no data rows" placeholder; otherwise
the CSV header is the key list of the first row and every row is written
(one output line per input row), each cell `r.get(k, "")`, so a missing
key yields an empty cell and no row is dropped. -/
theorem claim7_artifact_writer (success : Bool) (errors : List String)
    (rows : List (List (String × String))) :
    ((write_run_artifacts success errors rows).json_run_successful = success ∧
     (write_run_artifacts success errors rows).json_error_messages = errors) ∧
    (rows = [] → (write_run_artifacts success errors rows).csv = .noData) ∧
    (∀ r0 rest, rows = r0 :: rest →
      (write_run_artifacts success errors rows).csv =
        .table (r0.map Prod.fst) (rows.map fun r => (r0.map Prod.fst).map (rowGet r)) ∧
      (rows.map fun r => (r0.map Prod.fst).map (rowGet r)).length = rows.length) ∧
    (∀ (r : List (String × String)) (k : String), k ∉ r.map Prod.fst → rowGet r k = "") := by
  refine ⟨⟨rfl, rfl⟩, ?_, ?_, ?_⟩
  · intro h; subst h; rfl
  · intro r0 rest h
    subst h
    exact ⟨rfl, by simp⟩
  · intro r k hk
    have hf : r.find? (fun kv => kv.1 = k) = none := by
      rw [List.find?_eq_none]
      intro kv hkv
      simp only [decide_eq_true_eq]
      intro heq
      exact hk (heq ▸ List.mem_map_of_mem Prod.fst hkv)
    simp [rowGet, hf]

/-- Whenever `s3_upload` returns a URL, it is the presigned URL exactly
when the bucket is private and the expiry positive, else the default
virtual-hosted URL. -/
theorem s3_upload_ok_shape (env : S3Env) (bucket key : String) (public : Bool)
    (presign_seconds : Int) (url : Url)
    (h : s3_upload env bucket key public presign_seconds = .ok url) :
    url = if ¬ public ∧ presign_seconds > 0
          then Url.presigned bucket key presign_seconds
          else Url.virtualHosted bucket (s3Region env) key := by
  unfold s3_upload at h
  dsimp only at h
  repeat' split at h
  all_goals simp_all
  all_goals (split <;> simp_all)
  all_goals omega

/-- C8: URL selection of `publish`: `public=true` gives the default
virtual-hosted URL regardless of expiry; `public=false` with positive
expiry gives the signed URL carrying that expiry; `public=false` with
zero expiry gives the default URL. -/
theorem claim8_url_selection (env : S3Env) (bucket key : String) (public : Bool)
    (presign_seconds : Int) (url : Url)
    (h : s3_upload env bucket key public presign_seconds = .ok url) :
    (public = true → url = .virtualHosted bucket (s3Region env) key) ∧
    (public = false → presign_seconds > 0 → url = .presigned bucket key presign_seconds) ∧
    (public = false → presign_seconds = 0 → url = .virtualHosted bucket (s3Region env) key) := by
  have hs := s3_upload_ok_shape env bucket key public presign_seconds url h
  refine ⟨?_, ?_, ?_⟩
  · intro h1
    rw [hs]
    simp [h1]
  · intro h1 h2
    rw [hs]
    simp [h1, h2]
  · intro h1 h2
    rw [hs]
    simp [h1, h2]


/-- First row of the C7 witness data. -/
def rowA0 : List (String × String) := [("a", "1"), ("b", "2")]

/-- Witness rows for C7: the second row lacks key `"b"`. -/
def rowsA : List (List (String × String)) := [rowA0, [("a", "3")]]

/-- Witness for C7: concrete two-row input, one row missing a column. -/
theorem claim7_artifact_writer_witness :
    ((write_run_artifacts false ["e"] rowsA).csv =
       .table (rowA0.map Prod.fst) (rowsA.map fun r => (rowA0.map Prod.fst).map (rowGet r)) ∧
     (rowsA.map fun r => (rowA0.map Prod.fst).map (rowGet r)).length = rowsA.length) ∧
    ("b" ∉ ([("a", "3")] : List (String × String)).map Prod.fst) ∧
    rowGet [("a", "3")] "b" = "" :=
  ⟨(claim7_artifact_writer false ["e"] rowsA).2.2.1 rowA0 [[("a", "3")]] rfl,
   by decide,
   (claim7_artifact_writer false ["e"] rowsA).2.2.2 [("a", "3")] "b" (by decide)⟩

/-- An S3 environment whose first upload attempt succeeds and whose
bucket location lookup returns a region. -/
def envS3 : S3Env := ⟨.ok (), .ok (), .ok (some "eu-west-1"), none⟩

/-- Witness for C8: a private bucket with a seven-day expiry yields the
presigned URL. -/
theorem claim8_url_selection_witness :
    s3_upload envS3 "tiles-runs" "processed-runs/outputs_J1/results_J1.json" false 604800 =
      .ok (.presigned "tiles-runs" "processed-runs/outputs_J1/results_J1.json" 604800) ∧
    ((false = true →
        Url.presigned "tiles-runs" "processed-runs/outputs_J1/results_J1.json" 604800 =
          .virtualHosted "tiles-runs" (s3Region envS3) "processed-runs/outputs_J1/results_J1.json") ∧
     (false = false → (604800 : Int) > 0 →
        Url.presigned "tiles-runs" "processed-runs/outputs_J1/results_J1.json" 604800 =
          .presigned "tiles-runs" "processed-runs/outputs_J1/results_J1.json" 604800) ∧
     (false = false → (604800 : Int) = 0 →
        Url.presigned "tiles-runs" "processed-runs/outputs_J1/results_J1.json" 604800 =
          .virtualHosted "tiles-runs" (s3Region envS3) "processed-runs/outputs_J1/results_J1.json")) :=
  ⟨by decide,
   claim8_url_selection envS3 "tiles-runs" "processed-runs/outputs_J1/results_J1.json"
     false 604800 _ (by decide)⟩


end Tiles
